/-
Verification of the ScribeSnap resilience core (backend/app): the circuit
breaker and retry pipeline in services/gemini_service.py, the workflow
orchestrator in services/note_service.py, the sliding-window rate limiter in
middleware/rate_limit.py, and the pagination logic of NoteService.list_notes.

Time values (Python `time.time()` floats and datetimes) are modelled as
rationals; Python `int(x)` truncation is modelled by `truncToZero`.
-/
import Mathlib

/-- Python `int(x)` applied to a real value truncates toward zero. -/
def truncToZero (q : ℚ) : ℤ := if 0 ≤ q then ⌊q⌋ else ⌈q⌉

/-- The three circuit-breaker states; the source uses the string constants
"closed", "open" and "half_open" (gemini_service.py lines 90-92). -/
inductive CBState
  | closed
  | open_
  | halfOpen
deriving DecidableEq, Repr

/-- State of `CircuitBreaker` (gemini_service.py lines 94-105): configured
`failure_threshold` and `recovery_timeout`, plus the mutable
`failure_count`, `state` and `last_failure_time` fields. -/
structure CircuitBreaker where
  failure_threshold : Nat
  recovery_timeout : ℚ
  failure_count : Nat
  state : CBState
  last_failure_time : Option ℚ
deriving DecidableEq, Repr

/-- `CircuitBreaker.__init__`: starts closed with zero failures. -/
def CircuitBreaker.init (failure_threshold : Nat) (recovery_timeout : ℚ) :
    CircuitBreaker :=
  ⟨failure_threshold, recovery_timeout, 0, .closed, none⟩

/-- `CircuitBreaker.can_execute` (gemini_service.py lines 107-137).
Returns the (possibly updated) breaker on permission; on rejection the
error carries `recovery_time = int(recovery_timeout - elapsed)` as raised
in `CircuitBreakerOpenError`. -/
def can_execute (cb : CircuitBreaker) (now : ℚ) : Except ℤ CircuitBreaker :=
  match cb.state with
  | .closed => .ok cb
  | .open_ =>
    let elapsed := now - cb.last_failure_time.getD 0
    if cb.recovery_timeout ≤ elapsed then
      .ok { cb with state := .halfOpen }
    else
      .error (truncToZero (cb.recovery_timeout - elapsed))
  | .halfOpen => .ok cb

/-- `CircuitBreaker.record_success` (gemini_service.py lines 139-149). -/
def record_success (cb : CircuitBreaker) : CircuitBreaker :=
  { cb with failure_count := 0, state := .closed, last_failure_time := none }

/-- `CircuitBreaker.record_failure` (gemini_service.py lines 151-170):
increment the count, stamp the failure time, and open the circuit from
HALF_OPEN or when the threshold is reached. -/
def record_failure (cb : CircuitBreaker) (now : ℚ) : CircuitBreaker :=
  let cb1 :=
    { cb with
        failure_count := cb.failure_count + 1
        last_failure_time := some now }
  if cb.state = .halfOpen then { cb1 with state := .open_ }
  else if cb.failure_threshold ≤ cb1.failure_count then { cb1 with state := .open_ }
  else cb1

/-- A sequence of `record_failure` calls at the given times. -/
def record_failures (cb : CircuitBreaker) (ts : List ℚ) : CircuitBreaker :=
  ts.foldl record_failure cb

/-- Kinds of Python exceptions an attempted Gemini call can raise, as far as
the retry predicate distinguishes them.  `connectionError` and
`timeoutError` are the kinds the decorator comment calls transient;
`genericException` is any other subclass of `Exception` (e.g. the generic
errors the Gemini SDK raises); `baseExcOnly` is a `BaseException` that is
not an `Exception` (e.g. `KeyboardInterrupt`). -/
inductive ExcKind
  | connectionError
  | timeoutError
  | genericException
  | baseExcOnly
deriving DecidableEq, Repr

/-- `isinstance(e, Exception)` for the modelled kinds. -/
def isExceptionInstance : ExcKind → Bool
  | .baseExcOnly => false
  | _ => true

/-- The retry predicate of the `@retry` decorator on
`GeminiService._call_gemini_with_retry` (gemini_service.py lines 326-330):
`retry_if_exception_type((ConnectionError, TimeoutError, Exception))`. -/
def isRetryableExc (k : ExcKind) : Bool :=
  k = .connectionError ∨ k = .timeoutError ∨ isExceptionInstance k

/-- Refinement definition following the spec's words, for comparison with
`isRetryableExc`: the spec designates only transient failure kinds as
retryable ("retrying only on designated transient-failure kinds"; the
decorator's own comment names network issues — connection and timeout
errors — as the transient types). -/
def specTransientRetryable : ExcKind → Bool
  | .connectionError => true
  | .timeoutError => true
  | _ => false

/-- Outcome of one attempt of the wrapped operation (the body of
`_call_gemini_with_retry`): extracted text, or an exception of some kind. -/
inductive Attempt
  | succ (text : String)
  | fail (k : ExcKind)
deriving DecidableEq, Repr

/-- Result of running tenacity's retry loop: a successful value, the last
exception re-raised as itself, or a tenacity `RetryError` wrapping the last
attempt — each carrying the number of attempts performed. -/
inductive RetryOutcome
  | ok (text : String) (attempts : Nat)
  | raised (k : ExcKind) (attempts : Nat)
  | retryError (k : ExcKind) (attempts : Nat)
deriving DecidableEq, Repr

/-- Tenacity's retry loop with `stop_after_attempt`: attempt `i` runs with
`fuel` attempts still permitted (including this one).  A failing attempt is
final when its kind fails the retry predicate (the original exception is
raised) or when the attempt budget is exhausted (with `reraise` the last
exception is re-raised, otherwise a `RetryError` is raised).  The fuel-0
base case is unreachable from `call_gemini_with_retry` since
`settings.retry_max_attempts` is validated to be at least 1. -/
def tenacityRun (reraise : Bool) (op : Nat → Attempt) : Nat → Nat → RetryOutcome
  | _, 0 => .raised .genericException 0
  | i, rem + 1 =>
    match op i with
    | .succ t => .ok t i
    | .fail k =>
      if isRetryableExc k then
        if rem = 0 then
          if reraise then .raised k i else .retryError k i
        else
          tenacityRun reraise op (i + 1) rem
      else .raised k i

/-- `GeminiService._call_gemini_with_retry` (gemini_service.py lines
323-401): the decorated call, with `stop=stop_after_attempt(maxAttempts)`
and `reraise=True` as configured in the source. -/
def call_gemini_with_retry (op : Nat → Attempt) (maxAttempts : Nat) : RetryOutcome :=
  tenacityRun true op 1 maxAttempts

/-- Message of the `LLMServiceError` raised from the (dead) `except
RetryError` branch of `parse_image` (gemini_service.py line 305). -/
def retriesExhaustedMsg : String :=
  "AI text extraction failed after multiple attempts. Please try again later."

/-- Message of the `LLMServiceError` raised from the `except Exception`
branch of `parse_image` (gemini_service.py line 319). -/
def unexpectedErrorMsg : String :=
  "An unexpected error occurred during text extraction."

deriving instance DecidableEq for Except

/-- The typed failures that can cross `parse_image` / `parse_note`
boundaries: `CircuitBreakerOpenError` with its `recovery_time`,
`LLMServiceError` with its message and optional `retry_after`,
`ValidationError`, `DatabaseError`, and a raw non-`Exception` signal that
no handler catches. -/
inductive PyFailure
  | breakerOpen (recovery_time : ℤ)
  | llmError (message : String) (retry_after : Option ℚ)
  | validationError (message : String)
  | databaseError
  | rawExc (k : ExcKind)
deriving DecidableEq, Repr

/-- Events recorded against the circuit breaker. -/
inductive BEvent
  | success
  | failure
deriving DecidableEq, Repr

/-- Result of `GeminiService.parse_image`: the outcome, the breaker state
afterwards, the breaker events recorded during the call, and how many
attempts of the underlying Gemini call were made. -/
structure ParseImageResult where
  outcome : Except PyFailure String
  breaker : CircuitBreaker
  events : List BEvent
  attemptsMade : Nat
deriving DecidableEq, Repr

/-- `GeminiService.parse_image` (gemini_service.py lines 245-321):
check the circuit breaker (raising `CircuitBreakerOpenError` without any
downstream call if open), run the retried Gemini call, then record exactly
one success or failure.  Because the decorator sets `reraise=True`, an
exhausted retry loop re-raises the last exception, which lands in the
`except Exception` branch; the `except RetryError` branch is modelled
faithfully but never reached.  A non-`Exception` signal matches no handler
and propagates without recording a breaker event. -/
def parse_image (cb : CircuitBreaker) (now : ℚ) (maxAttempts : Nat)
    (op : Nat → Attempt) : ParseImageResult :=
  match can_execute cb now with
  | .error r => ⟨.error (.breakerOpen r), cb, [], 0⟩
  | .ok cb1 =>
    match call_gemini_with_retry op maxAttempts with
    | .ok t n => ⟨.ok t, record_success cb1, [.success], n⟩
    | .retryError _ n =>
      ⟨.error (.llmError retriesExhaustedMsg (some cb1.recovery_timeout)),
        record_failure cb1 now, [.failure], n⟩
    | .raised k n =>
      if isExceptionInstance k then
        ⟨.error (.llmError unexpectedErrorMsg none),
          record_failure cb1 now, [.failure], n⟩
      else ⟨.error (.rawExc k), cb1, [], n⟩

/-- The fields of a `Note` row touched by `NoteService.parse_note`
(models/note.py): `status` is one of the strings "processing",
"completed", "failed". -/
structure NoteRec where
  parsed_text : String
  status : String
  error_message : Option String
  retry_count : Nat
deriving DecidableEq, Repr

/-- Observable steps of one `parse_note` execution: validation succeeded,
the Note object was created, a state was flushed to the database, and the
n-th attempt of the external Gemini call ran. -/
inductive Ev
  | validated
  | noteCreated
  | flushed (status : String)
  | attempt (i : Nat)
deriving DecidableEq, Repr

/-- Trace events for the `n` attempts made inside the protected call. -/
def attemptEvents (n : Nat) : List Ev :=
  (List.range n).map fun i => Ev.attempt (i + 1)

/-- Result of `NoteService.parse_note`: the outcome returned or raised to
the route handler, the in-session note object, the last note state
actually flushed to durable storage, the event trace, the breaker events
and final breaker state, the number of external attempts, and whether the
stored file was cleaned up. -/
structure OrchResult where
  outcome : Except PyFailure String
  note : Option NoteRec
  durable : Option NoteRec
  trace : List Ev
  breakerEvents : List BEvent
  breaker : CircuitBreaker
  attemptsMade : Nat
  cleanupRan : Bool
deriving DecidableEq, Repr

/-- `NoteService.parse_note` (note_service.py lines 69-189).  Inputs the
orchestrator does not compute itself are parameters: the outcome of
`file_service.validate_and_store` (error = the raised `ValidationError`
message), whether each of the three `db.flush()` calls succeeds (the
step-2 flush, the step-4 flush of the completed note, and the flush inside
the `except LLMServiceError` handler whose own failure is swallowed), and
the behaviour of the Gemini call.  `CircuitBreakerOpenError` is not a
subclass of `LLMServiceError` (exceptions.py), so it is handled by the
generic `except Exception` clause: the file is cleaned up and the error
re-raised as a `ScribeSnapError`, without touching the note. -/
def parse_note (validation : Except String (String × String))
    (flush2Ok flush4Ok flushFailOk : Bool)
    (cb : CircuitBreaker) (now : ℚ) (maxAttempts : Nat)
    (op : Nat → Attempt) : OrchResult :=
  match validation with
  | .error m =>
    ⟨.error (.validationError m), none, none, [], [], cb, 0, false⟩
  | .ok _paths =>
    let note0 : NoteRec := ⟨"", "processing", none, 0⟩
    if flush2Ok then
      let pi := parse_image cb now maxAttempts op
      let preTrace := [Ev.validated, Ev.noteCreated, Ev.flushed "processing"]
        ++ attemptEvents pi.attemptsMade
      match pi.outcome with
      | .ok t =>
        let note1 := { note0 with parsed_text := t, status := "completed" }
        if flush4Ok then
          ⟨.ok t, some note1, some note1, preTrace ++ [Ev.flushed "completed"],
            pi.events, pi.breaker, pi.attemptsMade, false⟩
        else
          ⟨.error .databaseError, some note1, some note0, preTrace,
            pi.events, pi.breaker, pi.attemptsMade, true⟩
      | .error (.llmError m ra) =>
        let note1 :=
          { note0 with
              status := "failed"
              error_message := some m
              retry_count := note0.retry_count + 1 }
        if flushFailOk then
          ⟨.error (.llmError m ra), some note1, some note1,
            preTrace ++ [Ev.flushed "failed"],
            pi.events, pi.breaker, pi.attemptsMade, false⟩
        else
          ⟨.error (.llmError m ra), some note1, some note0, preTrace,
            pi.events, pi.breaker, pi.attemptsMade, false⟩
      | .error (.breakerOpen r) =>
        ⟨.error (.breakerOpen r), some note0, some note0, preTrace,
          pi.events, pi.breaker, pi.attemptsMade, true⟩
      | .error e =>
        ⟨.error e, some note0, some note0, preTrace,
          pi.events, pi.breaker, pi.attemptsMade, false⟩
    else
      ⟨.error .databaseError, some note0, none, [Ev.validated, Ev.noteCreated],
        [], cb, 0, true⟩

/-- Configuration of `RateLimitMiddleware` (middleware/rate_limit.py):
`settings.rate_limit_requests` and `settings.rate_limit_window`.  The
config validates `limit ≥ 10`, so the timestamp list is never empty at the
point the source reads its first element. -/
structure RateLimiter where
  limit : Nat
  window : ℚ
deriving DecidableEq, Repr

/-- The sliding-window pruning step (rate_limit.py lines 104-106): keep
only timestamps strictly newer than `now - window`. -/
def pruneTs (window now : ℚ) (ts : List ℚ) : List ℚ :=
  ts.filter fun t => now - window < t

/-- The per-key admission decision of `RateLimitMiddleware.dispatch`
(rate_limit.py lines 98-135): prune the key's timestamps, reject with
`retry_after = int(oldest + window - now) + 1` when the pruned count has
reached the limit, otherwise append `now` and admit. -/
def dispatch (rl : RateLimiter) (ts : List ℚ) (now : ℚ) : Except ℤ (List ℚ) :=
  let ts1 := pruneTs rl.window now ts
  if rl.limit ≤ ts1.length then
    .error (truncToZero (ts1.headD 0 + rl.window - now) + 1)
  else
    .ok (ts1 ++ [now])

/-- A sequence of admissions for one key, starting from timestamp list
`ts`; `none` as soon as one request is rejected. -/
def dispatchSeq (rl : RateLimiter) : List ℚ → List ℚ → Option (List ℚ)
  | ts, [] => some ts
  | ts, t :: rest =>
    match dispatch rl ts t with
    | .ok ts1 => dispatchSeq rl ts1 rest
    | .error _ => none

/-- The fields of a `Note` row used by `NoteService.list_notes`; the
`created_at` datetime is modelled as a rational timestamp. -/
structure NoteRow where
  created_at : ℚ
  parsed_text : String
deriving DecidableEq, Repr

/-- Response shape of `list_notes` (schemas `NoteListResponse`); the
`next_cursor` ISO string is modelled by the `created_at` timestamp it
renders (`isoformat` is injective on datetimes). -/
structure NoteListResponse where
  items : List NoteRow
  total_count : Nat
  next_cursor : Option ℚ
  has_more : Bool
deriving DecidableEq, Repr

/-- Insertion into a sorted list, used to model the database's ORDER BY. -/
def insertSorted (le : NoteRow → NoteRow → Bool) (x : NoteRow) :
    List NoteRow → List NoteRow
  | [] => [x]
  | y :: ys => if le x y then x :: y :: ys else y :: insertSorted le x ys

/-- The database's ORDER BY over the filtered rows (an external
collaborator of list_notes, modelled as an insertion sort). -/
def sortRows (le : NoteRow → NoteRow → Bool) (l : List NoteRow) : List NoteRow :=
  l.foldr (insertSorted le) []

/-- `NoteService.list_notes` (note_service.py lines 242-388).
`parseIso` models `datetime.fromisoformat`, returning `none` exactly when
the Python call raises `ValueError`; the source swallows that error and
applies no predicate for the offending parameter.  The query applies the
cursor predicate (`<` for sort string "created_at_desc", else `>`), the
optional date-range bounds, the sort order ("created_at_asc" ascending,
anything else descending), and fetches `limit + 1` rows; the count query
applies only the date-range bounds to the whole table. -/
def list_notes (parseIso : String → Option ℚ) (db : List NoteRow) (lim : Nat)
    (cursor : Option String) (from_date to_date : Option String)
    (sort : String) : NoteListResponse :=
  let q1 := match cursor with
    | none => db
    | some c =>
      match parseIso c with
      | none => db
      | some dt =>
        if sort = "created_at_desc" then db.filter fun nt => nt.created_at < dt
        else db.filter fun nt => dt < nt.created_at
  let q2 := match from_date with
    | none => q1
    | some s =>
      match parseIso s with
      | none => q1
      | some dt => q1.filter fun nt => dt ≤ nt.created_at
  let q3 := match to_date with
    | none => q2
    | some s =>
      match parseIso s with
      | none => q2
      | some dt => q2.filter fun nt => nt.created_at ≤ dt
  let sorted :=
    if sort = "created_at_asc" then
      sortRows (fun a b => a.created_at ≤ b.created_at) q3
    else
      sortRows (fun a b => b.created_at ≤ a.created_at) q3
  let fetched := sorted.take (lim + 1)
  let cdb1 := match from_date with
    | none => db
    | some s =>
      match parseIso s with
      | none => db
      | some dt => db.filter fun nt => dt ≤ nt.created_at
  let cdb2 := match to_date with
    | none => cdb1
    | some s =>
      match parseIso s with
      | none => cdb1
      | some dt => cdb1.filter fun nt => nt.created_at ≤ dt
  let total_count := cdb2.length
  let has_more := decide (lim < fetched.length)
  let items := if has_more then fetched.take lim else fetched
  let next_cursor :=
    if has_more ∧ items ≠ [] then some (items.getLastD ⟨0, ""⟩).created_at
    else none
  ⟨items, total_count, next_cursor, has_more⟩

/-! Helper lemmas about the circuit breaker. -/

theorem can_execute_closed (cb : CircuitBreaker) (now : ℚ)
    (h : cb.state = .closed) : can_execute cb now = .ok cb := by
  simp only [can_execute, h]

theorem can_execute_open_reject (cb : CircuitBreaker) (now l T : ℚ)
    (h1 : cb.state = .open_) (h2 : cb.last_failure_time = some l)
    (h4 : cb.recovery_timeout = T) (h3 : now - l < T) :
    can_execute cb now = .error (truncToZero (T - (now - l))) := by
  simp only [can_execute, h1, h2, h4, Option.getD_some]
  rw [if_neg (not_le.mpr h3)]

theorem record_failure_closed_hit (cb : CircuitBreaker) (x : ℚ)
    (h1 : cb.state = .closed) (h2 : cb.failure_threshold ≤ cb.failure_count + 1) :
    record_failure cb x =
      { cb with
          failure_count := cb.failure_count + 1
          state := .open_
          last_failure_time := some x } := by
  simp [record_failure, h1, h2]

theorem record_failure_closed_miss (cb : CircuitBreaker) (x : ℚ)
    (h1 : cb.state = .closed) (h2 : cb.failure_count + 1 < cb.failure_threshold) :
    record_failure cb x =
      { cb with
          failure_count := cb.failure_count + 1
          last_failure_time := some x } := by
  simp [record_failure, h1, Nat.not_le.mpr h2]

theorem record_failures_closed (ts : List ℚ) :
    ∀ cb : CircuitBreaker, cb.state = .closed →
    cb.failure_count + ts.length < cb.failure_threshold →
    (record_failures cb ts).state = .closed
    ∧ (record_failures cb ts).failure_count = cb.failure_count + ts.length
    ∧ (record_failures cb ts).failure_threshold = cb.failure_threshold
    ∧ (record_failures cb ts).recovery_timeout = cb.recovery_timeout := by
  induction ts with
  | nil =>
    intro cb h1 _h2
    simp [record_failures, h1]
  | cons x rest ih =>
    intro cb h1 h2
    have hlen : (x :: rest).length = rest.length + 1 := by simp
    have hlt : cb.failure_count + 1 < cb.failure_threshold := by
      rw [hlen] at h2; omega
    have hstep : record_failures cb (x :: rest)
        = record_failures (record_failure cb x) rest := rfl
    rw [hstep, record_failure_closed_miss cb x h1 hlt]
    have := ih
      { cb with
          failure_count := cb.failure_count + 1
          last_failure_time := some x }
      (by simp [h1]) (by simp only; rw [hlen] at h2; omega)
    simp only at this
    refine ⟨this.1, ?_, this.2.2.1, this.2.2.2⟩
    rw [this.2.1]
    simp [hlen]; omega

/-- C5: starting from the initial Closed breaker, any sequence of
failureThreshold - 1 recorded failures leaves the breaker Closed with
can_execute granting permission; after exactly failureThreshold recorded
failures the breaker is Open with lastFailureTime the time of the final
failure, and every can_execute call before recoveryTimeout has elapsed
since lastFailureTime is rejected with BreakerOpen carrying the remaining
recovery time, and a parse_image call at such a moment performs zero
downstream attempts. -/
theorem breaker_threshold_open_rejects (t : Nat) (timeout : ℚ) (ht : 0 < t) :
    (∀ ts : List ℚ, ts.length + 1 = t →
      (record_failures (CircuitBreaker.init t timeout) ts).state = .closed
      ∧ ∀ now : ℚ, can_execute (record_failures (CircuitBreaker.init t timeout) ts) now
          = .ok (record_failures (CircuitBreaker.init t timeout) ts))
    ∧ (∀ (ts : List ℚ) (x : ℚ), ts.length + 1 = t →
      (record_failures (CircuitBreaker.init t timeout) (ts ++ [x])).state = .open_
      ∧ (record_failures (CircuitBreaker.init t timeout) (ts ++ [x])).last_failure_time
          = some x
      ∧ ∀ (now : ℚ) (n : Nat) (op : Nat → Attempt), now - x < timeout →
          can_execute (record_failures (CircuitBreaker.init t timeout) (ts ++ [x])) now
            = .error (truncToZero (timeout - (now - x)))
          ∧ (parse_image (record_failures (CircuitBreaker.init t timeout) (ts ++ [x]))
              now n op).attemptsMade = 0) := by
  constructor
  · intro ts hlen
    have hbase := record_failures_closed ts (CircuitBreaker.init t timeout)
      (by simp [CircuitBreaker.init]) (by simp [CircuitBreaker.init]; omega)
    exact ⟨hbase.1, fun now => can_execute_closed _ now hbase.1⟩
  · intro ts x hlen
    have hsplit : record_failures (CircuitBreaker.init t timeout) (ts ++ [x])
        = record_failure (record_failures (CircuitBreaker.init t timeout) ts) x := by
      simp [record_failures, List.foldl_append]
    have hbase := record_failures_closed ts (CircuitBreaker.init t timeout)
      (by simp [CircuitBreaker.init]) (by simp [CircuitBreaker.init]; omega)
    have hth : (record_failures (CircuitBreaker.init t timeout) ts).failure_threshold
        ≤ (record_failures (CircuitBreaker.init t timeout) ts).failure_count + 1 := by
      rw [hbase.2.1, hbase.2.2.1]
      simp [CircuitBreaker.init]
      omega
    have hhit := record_failure_closed_hit _ x hbase.1 hth
    rw [hsplit, hhit]
    have htm : (record_failures (CircuitBreaker.init t timeout) ts).recovery_timeout
        = timeout := by rw [hbase.2.2.2]; rfl
    refine ⟨rfl, rfl, ?_⟩
    intro now n op hlt
    have hrej := can_execute_open_reject
      { record_failures (CircuitBreaker.init t timeout) ts with
          failure_count := (record_failures (CircuitBreaker.init t timeout) ts).failure_count + 1
          state := .open_
          last_failure_time := some x }
      now x timeout rfl rfl htm hlt
    refine ⟨hrej, ?_⟩
    simp only [parse_image, hrej]

/-- Witness for breaker_threshold_open_rejects at threshold 2, recovery
timeout 60, failures at times 0 and 1, and a rejected call at time 31. -/
theorem breaker_threshold_open_rejects_witness :
    (record_failures (CircuitBreaker.init 2 60) [0]).state = .closed
    ∧ (record_failures (CircuitBreaker.init 2 60) ([0] ++ [1])).state = .open_
    ∧ can_execute (record_failures (CircuitBreaker.init 2 60) ([0] ++ [1])) 31
        = .error (truncToZero (60 - (31 - 1)))
    ∧ (parse_image (record_failures (CircuitBreaker.init 2 60) ([0] ++ [1])) 31 3
        (fun _ => .succ "t")).attemptsMade = 0 := by
  have h := breaker_threshold_open_rejects 2 60 (by decide)
  have h1 := h.1 [0] (by decide)
  have h2 := h.2 [0] 1 (by decide)
  have h3 := h2.2.2 31 3 (fun _ => .succ "t") (by norm_num)
  exact ⟨h1.1, h2.1, h3.1, h3.2⟩

/-- C10: when the Open breaker rejects a call, the reported remaining
recovery time is the floor (truncation toward zero, the value being
positive) of recoveryTimeout - elapsed; in particular a rejection with
less than one time unit of recovery remaining carries recovery_time = 0. -/
theorem breaker_recovery_hint_truncated (cb : CircuitBreaker) (now l : ℚ)
    (h1 : cb.state = .open_) (h2 : cb.last_failure_time = some l)
    (h3 : now - l < cb.recovery_timeout) :
    can_execute cb now = .error ⌊cb.recovery_timeout - (now - l)⌋
    ∧ truncToZero (cb.recovery_timeout - (now - l))
        = ⌊cb.recovery_timeout - (now - l)⌋
    ∧ (cb.recovery_timeout - (now - l) < 1 → can_execute cb now = .error 0) := by
  have hpos : (0 : ℚ) ≤ cb.recovery_timeout - (now - l) := by linarith
  have htr : truncToZero (cb.recovery_timeout - (now - l))
      = ⌊cb.recovery_timeout - (now - l)⌋ := by
    simp [truncToZero, hpos]
  have hrej := can_execute_open_reject cb now l cb.recovery_timeout h1 h2 rfl h3
  rw [htr] at hrej
  refine ⟨hrej, htr, fun hlt1 => ?_⟩
  rw [hrej]
  have : ⌊cb.recovery_timeout - (now - l)⌋ = 0 :=
    Int.floor_eq_zero_iff.mpr ⟨hpos, hlt1⟩
  rw [this]

/-- Witness for breaker_recovery_hint_truncated: breaker with threshold 1
and recovery timeout 60, failure recorded at time 0, rejected call at time
119/2 (half a second of recovery remaining) carries recovery_time 0. -/
theorem breaker_recovery_hint_truncated_witness :
    can_execute ⟨1, 60, 1, .open_, some 0⟩ (119/2) = .error 0 := by
  have h := breaker_recovery_hint_truncated ⟨1, 60, 1, .open_, some 0⟩ (119/2) 0
    rfl rfl (by norm_num)
  exact h.2.2 (by norm_num)

/-- C2 (code behaviour at the claim's scenario): after an Open breaker's
first can_execute call transitions it to Half-Open, a second can_execute
call issued before any record_success or record_failure is also granted
permission — the source returns True unconditionally in the HALF_OPEN
state — instead of being rejected as if the breaker were still Open. -/
theorem half_open_admits_second_probe :
    can_execute (record_failure (CircuitBreaker.init 1 60) 0) 60
      = .ok ⟨1, 60, 1, .halfOpen, some 0⟩
    ∧ can_execute ⟨1, 60, 1, .halfOpen, some 0⟩ 60
      = .ok ⟨1, 60, 1, .halfOpen, some 0⟩ := by
  constructor
  · norm_num [can_execute, record_failure, CircuitBreaker.init]
  · norm_num [can_execute]

/-- C3 counterexample: `genericException` stands for any Exception kind
outside the designated transient set (the decorator's comment designates
network/timeout errors as the transient types, and the spec's external
interface classifies failures as Transient vs Permanent) — yet the
decorator's predicate also lists the `Exception` base class, so an
operation failing with such a non-transient kind is attempted 3 times
rather than once. -/
theorem retry_nontransient_kind_retried :
    specTransientRetryable .genericException = false
    ∧ isRetryableExc .genericException = true
    ∧ call_gemini_with_retry (fun _ => .fail .genericException) 3
        = .raised .genericException 3 := by
  decide

/-- C3 amended: the decorator designates ConnectionError, TimeoutError and
the Exception base class as retryable, so an operation failing every time
with any kind that is an Exception instance is attempted exactly 3 times
under maxAttempts = 3 before the terminal failure; an operation whose
first failure is not an Exception instance is attempted exactly once; and
a circuit-breaker rejection is raised by can_execute before the retried
call, so the operation is attempted zero times and never retried. -/
theorem retry_attempt_classification (k : ExcKind) (op : Nat → Attempt)
    (cb : CircuitBreaker) (now : ℚ) (n : Nat) (r : ℤ) :
    (isRetryableExc k = true → (∀ i, op i = .fail k) →
      call_gemini_with_retry op 3 = .raised k 3)
    ∧ (isRetryableExc k = false → op 1 = .fail k →
      call_gemini_with_retry op 3 = .raised k 1)
    ∧ (can_execute cb now = .error r →
      (parse_image cb now n op).attemptsMade = 0
      ∧ (parse_image cb now n op).outcome = .error (.breakerOpen r)) := by
  refine ⟨fun hk hop => ?_, fun hk hop => ?_, fun hce => ?_⟩
  · simp [call_gemini_with_retry, tenacityRun, hop, hk]
  · simp [call_gemini_with_retry, tenacityRun, hop, hk]
  · constructor <;> simp only [parse_image, hce]

/-- Witness for retry_attempt_classification: a persistent connection
error is attempted 3 times; a non-Exception signal is attempted once; an
open breaker yields zero attempts. -/
theorem retry_attempt_classification_witness :
    call_gemini_with_retry (fun _ => .fail .connectionError) 3
      = .raised .connectionError 3
    ∧ call_gemini_with_retry (fun _ => .fail .baseExcOnly) 3
      = .raised .baseExcOnly 1
    ∧ (parse_image ⟨1, 60, 1, .open_, some 0⟩ 10 3
        (fun _ => .fail .connectionError)).attemptsMade = 0 := by
  refine ⟨(retry_attempt_classification .connectionError
      (fun _ => .fail .connectionError) (CircuitBreaker.init 1 60) 0 0 0).1
      rfl (fun _ => rfl),
    (retry_attempt_classification .baseExcOnly (fun _ => .fail .baseExcOnly)
      (CircuitBreaker.init 1 60) 0 0 0).2.1 rfl rfl,
    ((retry_attempt_classification .connectionError (fun _ => .fail .connectionError)
      ⟨1, 60, 1, .open_, some 0⟩ 10 3 50).2.2 ?_).1⟩
  norm_num [can_execute, truncToZero]

theorem tenacity_reraise_no_retry_error (op : Nat → Attempt) (k : ExcKind)
    (n : Nat) : ∀ (fuel i : Nat), tenacityRun true op i fuel ≠ .retryError k n := by
  intro fuel
  induction fuel with
  | zero => intro i; simp [tenacityRun]
  | succ rem ih =>
    intro i
    simp only [tenacityRun]
    cases hop : op i with
    | succ t => simp
    | fail k1 =>
      by_cases hk : isRetryableExc k1
      · simp only [hk, if_true]
        by_cases hrem : rem = 0
        · simp [hrem]
        · simp [hrem, ih (i + 1)]
      · simp [hk]

/-- C4 (code behaviour once retries are exhausted): because the decorator
sets reraise=True, tenacity re-raises the last exception and never raises
RetryError, so the `except RetryError` branch of parse_image — the only
branch that attaches retry_after = recovery_timeout and the attempt count
— is unreachable; an exhausted call instead surfaces through the generic
`except Exception` branch as an LLMServiceError with the generic message
and no retry_after, the same shape any unexpected single error would get. -/
theorem parse_image_exhaustion_lacks_retry_after :
    (parse_image (CircuitBreaker.init 5 60) 0 3
        (fun _ => .fail .connectionError)).outcome
      = .error (.llmError unexpectedErrorMsg none)
    ∧ (parse_image (CircuitBreaker.init 5 60) 0 3
        (fun _ => .fail .connectionError)).attemptsMade = 3
    ∧ (parse_image (CircuitBreaker.init 5 60) 0 3
        (fun _ => .fail .connectionError)).events = [.failure]
    ∧ unexpectedErrorMsg ≠ retriesExhaustedMsg
    ∧ ∀ (op : Nat → Attempt) (m : Nat) (k : ExcKind) (n : Nat),
        call_gemini_with_retry op m ≠ .retryError k n := by
  refine ⟨by decide, by decide, by decide, by decide, ?_⟩
  intro op m k n
  exact tenacity_reraise_no_retry_error op k n m 1

/-- C7: parse_image records at most one breaker event per outer protected
call whatever the breaker state and attempt outcomes (never one per retry
attempt); concretely, a call that fails twice and succeeds on the third
attempt records exactly one success (and through parse_note completes the
WorkItem with the successful payload), and a call exhausting all three
attempts records exactly one failure. -/
theorem breaker_one_event_per_outer_call :
    (∀ (cb : CircuitBreaker) (now : ℚ) (n : Nat) (op : Nat → Attempt),
      (parse_image cb now n op).events.length ≤ 1)
    ∧ (parse_image (CircuitBreaker.init 5 60) 0 3
        (fun i => if 3 ≤ i then .succ "text" else .fail .connectionError)).events
      = [.success]
    ∧ (parse_note (.ok ("a", "b")) true true true (CircuitBreaker.init 5 60) 0 3
        (fun i => if 3 ≤ i then .succ "text" else .fail .connectionError)).outcome
      = .ok "text"
    ∧ (parse_note (.ok ("a", "b")) true true true (CircuitBreaker.init 5 60) 0 3
        (fun i => if 3 ≤ i then .succ "text" else .fail .connectionError)).durable
      = some ⟨"text", "completed", none, 0⟩
    ∧ (parse_note (.ok ("a", "b")) true true true (CircuitBreaker.init 5 60) 0 3
        (fun i => if 3 ≤ i then .succ "text" else .fail .connectionError)).attemptsMade
      = 3
    ∧ (parse_image (CircuitBreaker.init 5 60) 0 3
        (fun _ => .fail .timeoutError)).events = [.failure] := by
  refine ⟨?_, by decide, by decide, by decide, by decide, by decide⟩
  intro cb now n op
  simp only [parse_image]
  cases can_execute cb now with
  | error r => simp
  | ok cb1 =>
    cases call_gemini_with_retry op n with
    | ok t m => simp
    | raised k m =>
      by_cases hk : isExceptionInstance k <;> simp [hk]
    | retryError k m => simp

/-- C1 (code behaviour at the claim's BreakerOpen case): with the breaker
Open (threshold 1, failure recorded at time 0, recovery timeout 60), a
parse_note call at time 10 on a validated upload creates and flushes the
WorkItem in Processing and then propagates CircuitBreakerOpenError —
which the `except (LLMServiceError,)` handler does not catch — leaving
the note in Processing with no error_message and retry_count 0. -/
theorem parse_note_breaker_open_leaves_processing :
    parse_note (.ok ("a", "b")) true true true
        (record_failure (CircuitBreaker.init 1 60) 0) 10 3 (fun _ => .succ "text")
      = ⟨.error (.breakerOpen 50), some ⟨"", "processing", none, 0⟩,
         some ⟨"", "processing", none, 0⟩,
         [.validated, .noteCreated, .flushed "processing"], [],
         ⟨1, 60, 1, .open_, some 0⟩, 0, true⟩ := by
  norm_num [parse_note, parse_image, can_execute, record_failure,
    CircuitBreaker.init, truncToZero, attemptEvents]

theorem attemptEvents_pos (n : Nat) (h : 0 < n) :
    ∃ tl, attemptEvents n = Ev.attempt 1 :: tl := by
  cases n with
  | zero => omega
  | succ m =>
    refine ⟨(List.range m).map fun i => Ev.attempt (i + 2), ?_⟩
    simp [attemptEvents, List.range_succ_eq_map, Function.comp]

theorem parse_note_trace_shape (validation : Except String (String × String))
    (f2 f4 ff : Bool) (cb : CircuitBreaker) (now : ℚ) (n : Nat)
    (op : Nat → Attempt) :
    (parse_note validation f2 f4 ff cb now n op).attemptsMade = 0
    ∨ ∃ suffix, (parse_note validation f2 f4 ff cb now n op).trace
        = ([Ev.validated, Ev.noteCreated, Ev.flushed "processing"]
            ++ attemptEvents
              (parse_note validation f2 f4 ff cb now n op).attemptsMade)
          ++ suffix := by
  cases validation with
  | error m => left; simp [parse_note]
  | ok p =>
    cases f2 with
    | false => left; simp [parse_note]
    | true =>
      right
      simp only [parse_note]
      generalize parse_image cb now n op = pi
      obtain ⟨o, br, ev, am⟩ := pi
      cases o with
      | ok t =>
        cases f4 with
        | true => exact ⟨[Ev.flushed "completed"], rfl⟩
        | false => exact ⟨[], by simp⟩
      | error e =>
        cases e with
        | llmError m ra =>
          cases ff with
          | true => exact ⟨[Ev.flushed "failed"], rfl⟩
          | false => exact ⟨[], by simp⟩
        | breakerOpen r => exact ⟨[], by simp⟩
        | validationError m => exact ⟨[], by simp⟩
        | databaseError => exact ⟨[], by simp⟩
        | rawExc k => exact ⟨[], by simp⟩

/-- C6: in every parse_note execution in which the protected external call
makes at least one attempt, the trace begins with successful validation,
creation of the Note record, and a flush of its Processing state, all
strictly before the first external attempt — the WorkItem is durably in
Processing before the external extraction call begins. -/
theorem workitem_durable_before_external_call
    (validation : Except String (String × String)) (f2 f4 ff : Bool)
    (cb : CircuitBreaker) (now : ℚ) (n : Nat) (op : Nat → Attempt)
    (h : 0 < (parse_note validation f2 f4 ff cb now n op).attemptsMade) :
    ∃ rest, (parse_note validation f2 f4 ff cb now n op).trace
      = Ev.validated :: Ev.noteCreated :: Ev.flushed "processing"
        :: Ev.attempt 1 :: rest := by
  rcases parse_note_trace_shape validation f2 f4 ff cb now n op with h0 | ⟨suffix, hs⟩
  · omega
  · rcases attemptEvents_pos _ h with ⟨tl, htl⟩
    rw [hs, htl]
    exact ⟨tl ++ suffix, by simp⟩

/-- Witness for workitem_durable_before_external_call: a closed breaker
and an immediately successful Gemini call make exactly one attempt, and
the trace opens with validation, record creation, the Processing flush,
and then the attempt. -/
theorem workitem_durable_before_external_call_witness :
    ∃ rest, (parse_note (.ok ("a", "b")) true true true (CircuitBreaker.init 5 60)
        0 3 (fun _ => .succ "t")).trace
      = Ev.validated :: Ev.noteCreated :: Ev.flushed "processing"
        :: Ev.attempt 1 :: rest :=
  workitem_durable_before_external_call (.ok ("a", "b")) true true true
    (CircuitBreaker.init 5 60) 0 3 (fun _ => .succ "t") (by decide)

theorem dispatchSeq_le_limit (rl : RateLimiter) :
    ∀ (times ts : List ℚ), ts.length + times.length ≤ rl.limit →
    ∃ final, dispatchSeq rl ts times = some final
      ∧ final.length ≤ ts.length + times.length := by
  intro times
  induction times with
  | nil => intro ts _h; exact ⟨ts, rfl, by simp⟩
  | cons t rest ih =>
    intro ts h
    have hpl : (pruneTs rl.window t ts).length ≤ ts.length :=
      List.length_filter_le _ _
    have hb1 : (t :: rest).length = rest.length + 1 := by simp
    have hb2 : (pruneTs rl.window t ts ++ [t]).length
        = (pruneTs rl.window t ts).length + 1 := by simp
    have hlt : ¬ rl.limit ≤ (pruneTs rl.window t ts).length := by omega
    have hdisp : dispatch rl ts t = .ok (pruneTs rl.window t ts ++ [t]) := by
      simp [dispatch, hlt]
    have hrec := ih (pruneTs rl.window t ts ++ [t]) (by omega)
    rcases hrec with ⟨final, h1, h2⟩
    refine ⟨final, by simp [dispatchSeq, hdisp, h1], by omega⟩

/-- C8 amended: each admission first prunes the key's timestamps to those
strictly newer than now - window (and the decision depends only on the
pruned list); any N requests starting from an empty key are all admitted
when the limit is N, each admission appending `now`; and a request that
arrives while N previous timestamps are still inside the window is
rejected with retryAfter = floor(earliest + window - now) + 1, which is
always at least 1 (this is one more than the claim's rounded-up value
whenever earliest + window - now is an exact integer, and equal to it
otherwise). -/
theorem rate_limiter_sliding_window (N : Nat) (W : ℚ) :
    (∀ times : List ℚ, times.length ≤ N →
      (dispatchSeq ⟨N, W⟩ [] times).isSome = true)
    ∧ (∀ (e now : ℚ) (rest : List ℚ), (e :: rest).length = N →
        (∀ t ∈ e :: rest, now - W < t) →
        dispatch ⟨N, W⟩ (e :: rest) now = .error (truncToZero (e + W - now) + 1)
        ∧ 1 ≤ truncToZero (e + W - now) + 1)
    ∧ (∀ (ts : List ℚ) (now : ℚ),
        dispatch ⟨N, W⟩ ts now = dispatch ⟨N, W⟩ (pruneTs W now ts) now)
    ∧ (∀ (ts res : List ℚ) (now : ℚ), dispatch ⟨N, W⟩ ts now = .ok res →
        res = pruneTs W now ts ++ [now]) := by
  refine ⟨?_, ?_, ?_, ?_⟩
  · intro times hlen
    rcases dispatchSeq_le_limit ⟨N, W⟩ times [] (by simpa using hlen) with ⟨f, h1, _⟩
    simp [h1]
  · intro e now rest hlen hin
    have hkeep : pruneTs W now (e :: rest) = e :: rest := by
      simp only [pruneTs]
      rw [List.filter_eq_self]
      intro a ha
      simpa using hin a ha
    have hb3 : (e :: rest).length = rest.length + 1 := by simp
    have hcond : N ≤ (pruneTs W now (e :: rest)).length := by
      rw [hkeep]
      omega
    have hcond1 : N ≤ rest.length + 1 := by omega
    have hval : dispatch ⟨N, W⟩ (e :: rest) now
        = .error (truncToZero (e + W - now) + 1) := by
      simp [dispatch, hkeep, hcond, hcond1]
    have hepos : 0 < e + W - now := by
      have := hin e (by simp)
      linarith
    have hfl : truncToZero (e + W - now) = ⌊e + W - now⌋ := by
      simp [truncToZero, le_of_lt hepos]
    have hge : (0 : ℤ) ≤ ⌊e + W - now⌋ := Int.floor_nonneg.mpr (le_of_lt hepos)
    exact ⟨hval, by rw [hfl]; omega⟩
  · intro ts now
    have hidem : pruneTs W now (pruneTs W now ts) = pruneTs W now ts := by
      simp only [pruneTs]
      rw [List.filter_eq_self]
      intro a ha
      exact (List.mem_filter.mp ha).2
    simp only [dispatch, hidem]
  · intro ts res now h
    by_cases hc : N ≤ (pruneTs W now ts).length
    · simp [dispatch, hc] at h
    · simp [dispatch, hc] at h
      exact h.symm

/-- Witness for rate_limiter_sliding_window with limit 2 and window 10:
requests at times 0 and 1 are admitted, a third request at time 5 with
both timestamps still in the window is rejected with retryAfter 6. -/
theorem rate_limiter_sliding_window_witness :
    (dispatchSeq ⟨2, 10⟩ [] [0, 1]).isSome = true
    ∧ dispatch ⟨2, 10⟩ [0, 1] 5 = .error (truncToZero (0 + 10 - 5) + 1)
    ∧ 1 ≤ truncToZero ((0 : ℚ) + 10 - 5) + 1
    ∧ dispatch ⟨2, 10⟩ [0, 1] 5 = dispatch ⟨2, 10⟩ (pruneTs 10 5 [0, 1]) 5
    ∧ [(0 : ℚ)] ++ [1] = pruneTs 10 1 [0] ++ [1] := by
  have h := rate_limiter_sliding_window 2 10
  have h2 := h.2.1 0 5 [1] (by decide) (by intro t ht; fin_cases ht <;> norm_num)
  refine ⟨h.1 [0, 1] (by decide), h2.1, h2.2, h.2.2.1 [0, 1] 5, ?_⟩
  refine h.2.2.2 [0] ([0] ++ [1]) 1 ?_
  norm_num [dispatch, pruneTs]

/-- C8 counterexample: with limit 10 and window 60, ten requests at time 0
fill the window; the eleventh request at time 0 is rejected with
retry_after = int(0 + 60 - 0) + 1 = 61, whereas the claim's formula — the
remaining time rounded up — gives 60. -/
theorem rate_limiter_retry_after_exceeds_ceiling :
    dispatchSeq ⟨10, 60⟩ [] (List.replicate 10 0) = some (List.replicate 10 0)
    ∧ dispatch ⟨10, 60⟩ (List.replicate 10 0) 0 = .error 61
    ∧ (⌈(0 : ℚ) + 60 - 0⌉ : ℤ) = 60 := by
  refine ⟨?_, ?_, by norm_num⟩
  · norm_num [dispatchSeq, dispatch, pruneTs, List.replicate]
  · norm_num [dispatch, pruneTs, truncToZero, List.replicate]

/-- C9: a cursor string that datetime.fromisoformat cannot parse is
silently ignored — list_notes applies no cursor predicate and returns
exactly the same first page as a call with no cursor at all. -/
theorem list_notes_invalid_cursor_ignored (parseIso : String → Option ℚ)
    (db : List NoteRow) (lim : Nat) (c : String)
    (from_date to_date : Option String) (sort : String)
    (h : parseIso c = none) :
    list_notes parseIso db lim (some c) from_date to_date sort
      = list_notes parseIso db lim none from_date to_date sort := by
  simp only [list_notes, h]

/-- Witness for list_notes_invalid_cursor_ignored on a two-row table with
a parser that rejects the cursor string. -/
theorem list_notes_invalid_cursor_ignored_witness :
    list_notes (fun _ => none) [⟨1, "a"⟩, ⟨2, "b"⟩] 1 (some "not-a-date")
        none none "created_at_desc"
      = list_notes (fun _ => none) [⟨1, "a"⟩, ⟨2, "b"⟩] 1 none
        none none "created_at_desc" :=
  list_notes_invalid_cursor_ignored (fun _ => none) [⟨1, "a"⟩, ⟨2, "b"⟩] 1
    "not-a-date" none none "created_at_desc" rfl

/-- Witness for parse_image_exhaustion_lacks_retry_after: the dead-branch
conjunct instantiated at the persistent connection-error operation. -/
theorem parse_image_exhaustion_lacks_retry_after_witness :
    call_gemini_with_retry (fun _ => .fail .connectionError) 3
      ≠ .retryError .connectionError 3 :=
  parse_image_exhaustion_lacks_retry_after.2.2.2.2
    (fun _ => .fail .connectionError) 3 .connectionError 3
